import Mathlib

/-!
Verification development for the `mongo_gen` helper library
(`src/mongoDB/mongo.go`).

The library is a thin generic wrapper over an external document-database
driver.  The wrapper code itself (context creation with a fixed 10-second
timeout, building filters, converting slices, passing errors through) is
embedded faithfully from `mongo.go`.  The external service's behaviour
(what insert/find/update/delete do to stored data) is not part of this
repository, so it is modelled from the specification's description of the
service; those definitions carry a `Modelled from the spec:` doc comment.

Each Go function `f(db, ...) (A, error)` becomes a Lean function returning
the pair of results (`res : Option A`, `err : Option Err`, mirroring Go's
`(value, error)` convention where the value is nil on error), the updated
modelled database state, and a trace of events: context acquisition with
its timeout, each driver call issued (with the exact request the wrapper
built), and context release (the deferred `cancel()`).  Driver failures
are modelled by a `fault : Option Err` parameter: `some e` means the
driver call reports error `e`.
-/

namespace MongoGen

/-- Modelled from the spec: a BSON field value as seen by this layer — an
opaque scalar domain.  We include integers, strings and object ids, which
is what the repository's own example and its filters use. -/
inductive BVal where
  | i (n : Int)
  | s (t : String)
  | oid (n : Nat)
deriving DecidableEq, Repr

/-- A document: a value implementing the `Document` interface of
`mongo.go` (an identifier accessor `GetID`) together with its named
fields, i.e. its BSON representation. -/
structure Doc where
  id : Nat
  fields : List (String × BVal)
deriving DecidableEq, Repr

/-- GetID of `mongo.go`: the document's ObjectID. -/
def Doc.GetID (d : Doc) : Nat := d.id

/-- An ordered BSON document (`bson.D` in the Go source): a list of
key/value pairs. -/
abbrev BsonD := List (String × BVal)

/-- Modelled from the spec: reading a top-level field of a stored
document; `_id` is the identifier, other keys are looked up among the
fields. -/
def lookupVal (d : Doc) (k : String) : Option BVal :=
  if k = "_id" then some (BVal.oid d.id) else d.fields.lookup k

/-- Modelled from the spec: a filter (an equality query document) matches
a stored document when every key/value pair of the filter equals the
corresponding field of the document. -/
def matchesFilter (filter : BsonD) (d : Doc) : Bool :=
  filter.all fun kv => decide (lookupVal d kv.1 = some kv.2)

/-- The modelled database state: named collections of stored documents. -/
abbrev DbState := List (String × List Doc)

/-- Modelled from the spec: `db.Collection(name)` — the named collection's
current contents, empty when the collection does not exist yet. -/
def getColl : DbState → String → List Doc
  | [], _ => []
  | (n, c) :: rest, name => if n = name then c else getColl rest name

/-- Modelled from the spec: writing back a collection's contents under its
name. -/
def setColl : DbState → String → List Doc → DbState
  | [], name, c => [(name, c)]
  | (n, c0) :: rest, name, c =>
    if n = name then (n, c) :: rest else (n, c0) :: setColl rest name c

/-- Driver result of a single insert (`mongo.InsertOneResult`). -/
structure InsertOneResult where
  insertedID : BVal
deriving DecidableEq, Repr

/-- Driver result of a batch insert (`mongo.InsertManyResult`). -/
structure InsertManyResult where
  insertedIDs : List BVal
deriving DecidableEq, Repr

/-- Driver result of an update (`mongo.UpdateResult`). -/
structure UpdateResult where
  matchedCount : Nat
  modifiedCount : Nat
  upsertedCount : Nat
deriving DecidableEq, Repr

/-- Driver result of a delete (`mongo.DeleteResult`). -/
structure DeleteResult where
  deletedCount : Nat
deriving DecidableEq, Repr

/-- A document wrapped as Go's `interface{}`: what `SaveMany` builds
element by element before submitting the batch. -/
inductive IFace where
  | ofDoc (d : Doc)
deriving DecidableEq, Repr

/-- Options the `Find` wrapper passes to the driver: the caller-supplied
sort model, skip and limit (`options.Find().SetSort(...).SetSkip(...).SetLimit(...)`). -/
structure FindOptions where
  sort : BsonD
  skip : Int
  limit : Int
deriving DecidableEq, Repr

/-- Errors the driver can report.  `noDocuments` is the driver's sentinel
for a single-document read that matched nothing (`mongo.ErrNoDocuments`);
the others stand for arbitrary service failures and per-call timeouts. -/
inductive Err where
  | noDocuments
  | network (code : Nat)
  | timeout
deriving DecidableEq, Repr

/-- The exact request a wrapper function hands to the driver. -/
inductive Req where
  | connect (uri : String)
  | ping
  | createIndex (coll : String) (keys : BsonD) (maxTimeSeconds : Nat)
  | insertOne (coll : String) (doc : Doc)
  | insertMany (coll : String) (docs : List IFace)
  | updateOne (coll : String) (filter : BsonD) (setDoc : Doc)
  | findOne (coll : String) (filter : BsonD)
  | deleteOne (coll : String) (filter : BsonD) (hint : BsonD)
  | find (coll : String) (filter : BsonD) (opts : FindOptions)
  | disconnect
deriving DecidableEq, Repr

/-- One observable step of a wrapper call: acquiring the bounded-duration
context (`context.WithTimeout`, with its timeout in seconds), issuing a
driver call, or releasing the context (the deferred `cancel()`). -/
inductive Event where
  | ctxAcquire (timeoutSeconds : Nat)
  | driverCall (r : Req)
  | ctxRelease
deriving DecidableEq, Repr

/-- Recognises driver-call events in a trace. -/
def isDriverCall : Event → Bool
  | Event.driverCall _ => true
  | _ => false

/-- Outcome of a data-path wrapper call: the Go result value (`none` when
the Go function returned nil), the Go error (`none` for nil error), the
database state afterwards, and the event trace of the call. -/
structure OpOut (A : Type) where
  res : Option A
  err : Option Err
  db : DbState
  trace : List Event
deriving Repr

/-- MongoHandler of `mongo.go`: owns the reference to the named logical
database obtained from the connected client. -/
structure MongoHandler where
  dbName : String
deriving DecidableEq, Repr

/-- Outcome of `NewMongoHandler`: the handle (nil on failure), the error,
and the event trace. -/
structure ConnOut where
  handle : Option MongoHandler
  err : Option Err
  trace : List Event
deriving Repr

/-! ### Modelled service semantics -/

/-- Modelled from the spec: the service's single-document read returns the
first stored document matching the filter, if any. -/
def svcFindOne (c : List Doc) (filter : BsonD) : Option Doc :=
  c.find? (matchesFilter filter)

/-- Modelled from the spec: setting one field of a BSON document —
overwrites the first occurrence of the key, appends the field when the key
is absent. -/
def setField (fs : List (String × BVal)) (k : String) (v : BVal) :
    List (String × BVal) :=
  match fs with
  | [] => [(k, v)]
  | (k0, v0) :: rest =>
    if k0 = k then (k, v) :: rest else (k0, v0) :: setField rest k v

/-- Modelled from the spec: a `$set` update document applied to stored
fields — every field of the update document is written, other stored
fields persist. -/
def setFields (old upd : List (String × BVal)) : List (String × BVal) :=
  upd.foldl (fun acc kv => setField acc kv.1 kv.2) old

/-- Modelled from the spec: applying `{$set: d}` to a stored document:
all of `d`'s fields are set (a full-document set). -/
def applySet (old upd : Doc) : Doc :=
  { id := upd.id, fields := setFields old.fields upd.fields }

/-- Modelled from the spec: the service's single-document update — the
first document matching the filter is updated in place with the `$set`
document; with no match the collection is unchanged, zero matched, and no
record is created (no upsert). -/
def svcUpdateOne : List Doc → BsonD → Doc → List Doc × UpdateResult
  | [], _, _ => ([], ⟨0, 0, 0⟩)
  | d :: rest, filter, upd =>
    if matchesFilter filter d then
      let d2 := applySet d upd
      (d2 :: rest, ⟨1, if d2 = d then 0 else 1, 0⟩)
    else
      let out := svcUpdateOne rest filter upd
      (d :: out.1, out.2)

/-- Modelled from the spec: the service's single-document delete — the
first document matching the filter is removed; with no match the
collection is unchanged and zero deleted is reported. -/
def svcDeleteOne : List Doc → BsonD → List Doc × DeleteResult
  | [], _ => ([], ⟨0⟩)
  | d :: rest, filter =>
    if matchesFilter filter d then (rest, ⟨1⟩)
    else
      let out := svcDeleteOne rest filter
      (d :: out.1, out.2)

/-- Modelled from the spec: total string comparison used by the service's
sort, character by character. -/
def charsLE : List Char → List Char → Bool
  | [], _ => true
  | _ :: _, [] => false
  | a :: as, b :: bs =>
    if a.toNat < b.toNat then true
    else if b.toNat < a.toNat then false
    else charsLE as bs

/-- Modelled from the spec: the type rank the service uses to order values
of different types. -/
def bvalRank : BVal → Nat
  | BVal.i _ => 0
  | BVal.oid _ => 1
  | BVal.s _ => 2

/-- Modelled from the spec: the service's total order on field values —
by type rank, then by the payload within a type. -/
def bvalLE : BVal → BVal → Bool
  | BVal.i a, BVal.i b => decide (a ≤ b)
  | BVal.oid a, BVal.oid b => decide (a ≤ b)
  | BVal.s a, BVal.s b => charsLE a.data b.data
  | x, y => decide (bvalRank x < bvalRank y)

/-- Modelled from the spec: missing fields sort before present ones. -/
def optLE : Option BVal → Option BVal → Bool
  | none, _ => true
  | some _, none => false
  | some a, some b => bvalLE a b

/-- Strict version of `optLE`. -/
def optLT (x y : Option BVal) : Bool :=
  optLE x y && !(optLE y x)

/-- One lexicographic comparison step: strictly smaller decides, strictly
greater decides, a tie defers to the rest of the sort model. -/
def cmpStep (x y : Option BVal) (rest : Bool) : Bool :=
  if optLT x y then true
  else if optLT y x then false
  else rest

/-- Modelled from the spec: ordering induced on documents by a
caller-supplied sort model — lexicographic over its field/direction list,
where a negative direction reverses the comparison on that field. -/
def docLE (sortModel : BsonD) (a b : Doc) : Bool :=
  match sortModel with
  | [] => true
  | (k, dir) :: rest =>
    if dir = BVal.i (-1) then
      cmpStep (lookupVal b k) (lookupVal a k) (docLE rest a b)
    else
      cmpStep (lookupVal a k) (lookupVal b k) (docLE rest a b)

/-- Modelled from the spec: the driver's skip option applied to the sorted
result sequence. -/
def applySkip (skip : Int) (l : List Doc) : List Doc :=
  l.drop skip.toNat

/-- Modelled from the spec: the driver's limit option — a limit of zero
means no limit, otherwise at most that many documents are returned. -/
def applyLimit (limit : Int) (l : List Doc) : List Doc :=
  if limit = 0 then l else l.take limit.natAbs

/-- Modelled from the spec: the service's multi-document read — the
matching documents, ordered per the sort model, with skip and limit
applied; the whole sequence is computed (materialized) before it is
returned. -/
def svcFind (c : List Doc) (filter : BsonD) (sortModel : BsonD)
    (skip limit : Int) : List Doc :=
  applyLimit limit
    (applySkip skip ((c.filter (matchesFilter filter)).mergeSort (docLE sortModel)))

/-! ### The wrapper functions of `mongo.go` -/

/-- NewMongoHandler (`mongo.go` lines 29-48): creates a 10-second context
(released by the deferred cancel), connects, returns the error on connect
failure; pings, returns the error on ping failure (without disconnecting);
otherwise returns a handler owning the named database. -/
def NewMongoHandler (dbName url : String)
    (connectFault pingFault : Option Err) : ConnOut :=
  match connectFault with
  | some e =>
    ⟨none, some e,
      [Event.ctxAcquire 10, Event.driverCall (Req.connect url), Event.ctxRelease]⟩
  | none =>
    match pingFault with
    | some e =>
      ⟨none, some e,
        [Event.ctxAcquire 10, Event.driverCall (Req.connect url),
         Event.driverCall Req.ping, Event.ctxRelease]⟩
    | none =>
      ⟨some ⟨dbName⟩, none,
        [Event.ctxAcquire 10, Event.driverCall (Req.connect url),
         Event.driverCall Req.ping, Event.ctxRelease]⟩

/-- CreateIndex (`mongo.go` lines 55-64): 10-second context, one
`Indexes().CreateOne` driver call with a 10-second max-time option; the
driver's error is returned as is. -/
def CreateIndex (db : DbState) (collectionName : String) (model : BsonD)
    (fault : Option Err) : OpOut Unit :=
  let trace := [Event.ctxAcquire 10,
    Event.driverCall (Req.createIndex collectionName model 10), Event.ctxRelease]
  match fault with
  | some e => ⟨none, some e, db, trace⟩
  | none => ⟨some (), none, db, trace⟩

/-- SaveOne (`mongo.go` lines 73-79): 10-second context, one `InsertOne`
driver call with the document as given; on success the service appends the
document to the collection. -/
def SaveOne (db : DbState) (collectionName : String) (doc : Doc)
    (fault : Option Err) : OpOut InsertOneResult :=
  let trace := [Event.ctxAcquire 10,
    Event.driverCall (Req.insertOne collectionName doc), Event.ctxRelease]
  match fault with
  | some e => ⟨none, some e, db, trace⟩
  | none =>
    ⟨some ⟨BVal.oid doc.id⟩, none,
      setColl db collectionName (getColl db collectionName ++ [doc]), trace⟩

/-- SaveMany (`mongo.go` lines 88-99): converts the document slice to a
slice of `interface{}` values of the same length and order, then 10-second
context and one `InsertMany` driver call with that sequence as the single
batch. -/
def SaveMany (db : DbState) (collectionName : String) (docs : List Doc)
    (fault : Option Err) : OpOut InsertManyResult :=
  let interfaces := docs.map IFace.ofDoc
  let trace := [Event.ctxAcquire 10,
    Event.driverCall (Req.insertMany collectionName interfaces), Event.ctxRelease]
  match fault with
  | some e => ⟨none, some e, db, trace⟩
  | none =>
    ⟨some ⟨docs.map fun d => BVal.oid d.id⟩, none,
      setColl db collectionName (getColl db collectionName ++ docs), trace⟩

/-- UpdateOne (`mongo.go` lines 109-117): 10-second context, one
`UpdateOne` driver call with filter `{_id: doc.GetID()}` and update
`{$set: doc}`; the driver's result and error are returned as is. -/
def UpdateOne (db : DbState) (collectionName : String) (doc : Doc)
    (fault : Option Err) : OpOut UpdateResult :=
  let filter : BsonD := [("_id", BVal.oid doc.GetID)]
  let trace := [Event.ctxAcquire 10,
    Event.driverCall (Req.updateOne collectionName filter doc), Event.ctxRelease]
  match fault with
  | some e => ⟨none, some e, db, trace⟩
  | none =>
    let out := svcUpdateOne (getColl db collectionName) filter doc
    ⟨some out.2, none, setColl db collectionName out.1, trace⟩

/-- FindOne (`mongo.go` lines 126-137): 10-second context, one `FindOne`
driver call with the given filter; `Decode` yields the driver's
`ErrNoDocuments` sentinel when nothing matched, and on any error the
function returns a nil document together with that same error. -/
def FindOne (db : DbState) (collectionName : String) (filter : BsonD)
    (fault : Option Err) : OpOut Doc :=
  let trace := [Event.ctxAcquire 10,
    Event.driverCall (Req.findOne collectionName filter), Event.ctxRelease]
  match fault with
  | some e => ⟨none, some e, db, trace⟩
  | none =>
    match svcFindOne (getColl db collectionName) filter with
    | some d => ⟨some d, none, db, trace⟩
    | none => ⟨none, some Err.noDocuments, db, trace⟩

/-- DeleteOne (`mongo.go` lines 146-153): 10-second context, one
`DeleteOne` driver call with filter `{_id: id}` and a delete option
hinting the index on `{_id: 1}`. -/
def DeleteOne (db : DbState) (collectionName : String) (id : Nat)
    (fault : Option Err) : OpOut DeleteResult :=
  let filter : BsonD := [("_id", BVal.oid id)]
  let hint : BsonD := [("_id", BVal.i 1)]
  let trace := [Event.ctxAcquire 10,
    Event.driverCall (Req.deleteOne collectionName filter hint), Event.ctxRelease]
  match fault with
  | some e => ⟨none, some e, db, trace⟩
  | none =>
    let out := svcDeleteOne (getColl db collectionName) filter
    ⟨some out.2, none, setColl db collectionName out.1, trace⟩

/-- Find (`mongo.go` lines 165-191): 10-second context, one `Find` driver
query built with the caller's sort model, skip and limit; `cursor.All`
materializes every result of that query into a slice before the function
returns it. -/
def Find (db : DbState) (collectionName : String) (sortModel filter : BsonD)
    (skip limit : Int) (fault : Option Err) : OpOut (List Doc) :=
  let opts : FindOptions := ⟨sortModel, skip, limit⟩
  let trace := [Event.ctxAcquire 10,
    Event.driverCall (Req.find collectionName filter opts), Event.ctxRelease]
  match fault with
  | some e => ⟨none, some e, db, trace⟩
  | none =>
    ⟨some (svcFind (getColl db collectionName) filter sortModel skip limit),
      none, db, trace⟩

/-- Close (`mongo.go` lines 196-201): 10-second context, one `Disconnect`
driver call; the driver's error is returned as is. -/
def Close (h : MongoHandler) (fault : Option Err) : Option Err × List Event :=
  (fault, [Event.ctxAcquire 10, Event.driverCall Req.disconnect, Event.ctxRelease])

/-- A trace that acquires one 10-second scope at entry, performs only
driver calls, and releases the scope at exit. -/
def scoped10 (t : List Event) : Prop :=
  ∃ mid, t = Event.ctxAcquire 10 :: mid ++ [Event.ctxRelease] ∧
    ∀ e ∈ mid, isDriverCall e = true

/-! ### Order lemmas for the modelled sort -/

theorem charsLE_trans (a b c : List Char) (h1 : charsLE a b = true)
    (h2 : charsLE b c = true) : charsLE a c = true := by
  induction a generalizing b c with
  | nil => simp [charsLE]
  | cons x as ih =>
    cases b with
    | nil => simp [charsLE] at h1
    | cons y bs =>
      cases c with
      | nil => simp [charsLE] at h2
      | cons z cs =>
        simp only [charsLE] at h1 h2 ⊢
        split at h1
        · split
          · rfl
          · split at h2
            · omega
            · split at h2
              · simp at h2
              · omega
        · split at h1
          · simp at h1
          · split at h2
            · split
              · rfl
              · split
                · omega
                · omega
            · split at h2
              · simp at h2
              · split
                · rfl
                · split
                  · omega
                  · exact ih bs cs h1 h2

theorem charsLE_total (a b : List Char) :
    charsLE a b = true ∨ charsLE b a = true := by
  induction a generalizing b with
  | nil => left; simp [charsLE]
  | cons x as ih =>
    cases b with
    | nil => right; simp [charsLE]
    | cons y bs =>
      simp only [charsLE]
      rcases Nat.lt_trichotomy x.toNat y.toNat with h | h | h
      · left; simp [h]
      · have h1 : ¬ x.toNat < y.toNat := by omega
        have h2 : ¬ y.toNat < x.toNat := by omega
        rcases ih bs with h3 | h3
        · left; simp [h1, h2, h3]
        · right; simp [h1, h2, h3]
      · right; simp [h]

theorem bvalLE_trans (a b c : BVal) (h1 : bvalLE a b = true)
    (h2 : bvalLE b c = true) : bvalLE a c = true := by
  cases a <;> cases b <;> cases c <;>
    simp only [bvalLE, bvalRank, decide_eq_true_eq] at h1 h2 ⊢ <;>
    first
      | omega
      | exact charsLE_trans _ _ _ h1 h2

theorem bvalLE_total (a b : BVal) : bvalLE a b = true ∨ bvalLE b a = true := by
  cases a <;> cases b <;>
    simp only [bvalLE, bvalRank, decide_eq_true_eq] <;>
    first
      | omega
      | exact charsLE_total _ _

theorem optLE_trans (a b c : Option BVal) (h1 : optLE a b = true)
    (h2 : optLE b c = true) : optLE a c = true := by
  cases a with
  | none => simp [optLE]
  | some x =>
    cases b with
    | none => simp [optLE] at h1
    | some y =>
      cases c with
      | none => simp [optLE] at h2
      | some z => exact bvalLE_trans x y z h1 h2

theorem optLE_total (a b : Option BVal) :
    optLE a b = true ∨ optLE b a = true := by
  cases a with
  | none => left; simp [optLE]
  | some x =>
    cases b with
    | none => right; simp [optLE]
    | some y => exact bvalLE_total x y

theorem optLT_iff (a b : Option BVal) :
    optLT a b = true ↔ optLE a b = true ∧ optLE b a = false := by
  simp only [optLT, Bool.and_eq_true, Bool.not_eq_true']

theorem optLE_of_not_lt (a b : Option BVal) (h : ¬ optLT a b = true) :
    optLE b a = true := by
  rw [optLT_iff] at h
  rcases optLE_total a b with h1 | h1
  · cases hx : optLE b a
    · exact absurd ⟨h1, hx⟩ h
    · rfl
  · exact h1

theorem optLT_of_lt_of_le (a b c : Option BVal) (h1 : optLT a b = true)
    (h2 : optLE b c = true) : optLT a c = true := by
  rw [optLT_iff] at h1 ⊢
  refine ⟨optLE_trans a b c h1.1 h2, ?_⟩
  cases hx : optLE c a
  · rfl
  · have hba : optLE b a = true := optLE_trans b c a h2 hx
    rw [h1.2] at hba
    exact absurd hba (by simp)

theorem optLT_of_le_of_lt (a b c : Option BVal) (h1 : optLE a b = true)
    (h2 : optLT b c = true) : optLT a c = true := by
  rw [optLT_iff] at h2 ⊢
  refine ⟨optLE_trans a b c h1 h2.1, ?_⟩
  cases hx : optLE c a
  · rfl
  · have hcb : optLE c b = true := optLE_trans c a b hx h1
    rw [h2.2] at hcb
    exact absurd hcb (by simp)

theorem cmpStep_trans (x y z : Option BVal) (r1 r2 r3 : Bool)
    (hr : r1 = true → r2 = true → r3 = true)
    (h1 : cmpStep x y r1 = true) (h2 : cmpStep y z r2 = true) :
    cmpStep x z r3 = true := by
  unfold cmpStep at h1 h2 ⊢
  by_cases hxy : optLT x y = true
  · by_cases hyz : optLT y z = true
    · have := optLT_of_lt_of_le x y z hxy (optLT_iff y z |>.mp hyz).1
      simp [this]
    · have hzy : optLE z y = true := optLE_of_not_lt y z hyz
      split at h2
      · exact absurd (by assumption) hyz
      · split at h2
        · simp at h2
        · have := optLT_of_lt_of_le x y z hxy
            (optLE_of_not_lt z y (by assumption))
          simp [this]
  · have hyx : optLE y x = true := optLE_of_not_lt x y hxy
    split at h1
    · exact absurd (by assumption) hxy
    · split at h1
      · simp at h1
      · have hxyle : optLE x y = true := optLE_of_not_lt y x (by assumption)
        by_cases hyz : optLT y z = true
        · have := optLT_of_le_of_lt x y z hxyle hyz
          simp [this]
        · split at h2
          · exact absurd (by assumption) hyz
          · split at h2
            · simp at h2
            · have hzy : optLE z y = true := optLE_of_not_lt y z hyz
              have hyzle : optLE y z = true :=
                optLE_of_not_lt z y (by assumption)
              have hxz : ¬ optLT x z = true := fun hlt =>
                hxy (optLT_of_lt_of_le x z y hlt hzy)
              have hzx : ¬ optLT z x = true := fun hlt =>
                (by assumption : ¬ optLT z y = true)
                  (optLT_of_lt_of_le z x y hlt hxyle)
              simp only [hxz, hzx, if_false, reduceIte]
              exact hr h1 h2

theorem cmpStep_total (x y : Option BVal) (r1 r2 : Bool)
    (hr : r1 = true ∨ r2 = true) :
    cmpStep x y r1 = true ∨ cmpStep y x r2 = true := by
  unfold cmpStep
  by_cases hxy : optLT x y = true
  · left; simp [hxy]
  · by_cases hyx : optLT y x = true
    · right; simp [hyx]
    · simp only [hxy, hyx, if_false, reduceIte]
      exact hr

theorem docLE_trans (sm : BsonD) (a b c : Doc) (h1 : docLE sm a b = true)
    (h2 : docLE sm b c = true) : docLE sm a c = true := by
  induction sm with
  | nil => simp [docLE]
  | cons kd rest ih =>
    obtain ⟨k, dir⟩ := kd
    by_cases hdir : dir = BVal.i (-1) <;>
      simp only [docLE, hdir, if_true, if_false, reduceIte] at h1 h2 ⊢
    · exact cmpStep_trans (lookupVal c k) (lookupVal b k) (lookupVal a k)
        (docLE rest b c) (docLE rest a b) (docLE rest a c)
        (fun p q => ih q p) h2 h1
    · exact cmpStep_trans (lookupVal a k) (lookupVal b k) (lookupVal c k)
        (docLE rest a b) (docLE rest b c) (docLE rest a c) ih h1 h2

theorem docLE_total (sm : BsonD) (a b : Doc) :
    docLE sm a b = true ∨ docLE sm b a = true := by
  induction sm with
  | nil => left; simp [docLE]
  | cons kd rest ih =>
    obtain ⟨k, dir⟩ := kd
    by_cases hdir : dir = BVal.i (-1) <;>
      simp only [docLE, hdir, if_true, if_false, reduceIte]
    · exact cmpStep_total (lookupVal b k) (lookupVal a k)
        (docLE rest a b) (docLE rest b a) ih
    · exact cmpStep_total (lookupVal a k) (lookupVal b k)
        (docLE rest a b) (docLE rest b a) ih

/-! ### Helper lemmas about the embedded operations -/

theorem getColl_setColl (db : DbState) (name : String) (c : List Doc) :
    getColl (setColl db name c) name = c := by
  induction db with
  | nil => simp [setColl, getColl]
  | cons p rest ih =>
    obtain ⟨n, c0⟩ := p
    by_cases h : n = name <;> simp [setColl, getColl, h, ih]

theorem matchesFilter_idFilter (x : Doc) (n : Nat) :
    matchesFilter [("_id", BVal.oid n)] x = decide (x.id = n) := by
  simp [matchesFilter, lookupVal]

theorem svcUpdateOne_nomatch (c : List Doc) (filter : BsonD) (upd : Doc)
    (h : ∀ x ∈ c, matchesFilter filter x = false) :
    svcUpdateOne c filter upd = (c, ⟨0, 0, 0⟩) := by
  induction c with
  | nil => rfl
  | cons d rest ih =>
    have hd : matchesFilter filter d = false := h d (by simp)
    have hrest := ih fun x hx => h x (by simp [hx])
    simp [svcUpdateOne, hd, hrest]

theorem svcDeleteOne_nomatch (c : List Doc) (filter : BsonD)
    (h : ∀ x ∈ c, matchesFilter filter x = false) :
    svcDeleteOne c filter = (c, ⟨0⟩) := by
  induction c with
  | nil => rfl
  | cons d rest ih =>
    have hd : matchesFilter filter d = false := h d (by simp)
    have hrest := ih fun x hx => h x (by simp [hx])
    simp [svcDeleteOne, hd, hrest]

theorem createIndex_trace (db : DbState) (c : String) (m : BsonD)
    (f : Option Err) : (CreateIndex db c m f).trace =
      [Event.ctxAcquire 10, Event.driverCall (Req.createIndex c m 10),
       Event.ctxRelease] := by
  cases f <;> rfl

theorem saveOne_trace (db : DbState) (c : String) (d : Doc) (f : Option Err) :
    (SaveOne db c d f).trace =
      [Event.ctxAcquire 10, Event.driverCall (Req.insertOne c d),
       Event.ctxRelease] := by
  cases f <;> rfl

theorem saveMany_trace (db : DbState) (c : String) (ds : List Doc)
    (f : Option Err) : (SaveMany db c ds f).trace =
      [Event.ctxAcquire 10,
       Event.driverCall (Req.insertMany c (ds.map IFace.ofDoc)),
       Event.ctxRelease] := by
  cases f <;> rfl

theorem updateOne_trace (db : DbState) (c : String) (d : Doc) (f : Option Err) :
    (UpdateOne db c d f).trace =
      [Event.ctxAcquire 10,
       Event.driverCall (Req.updateOne c [("_id", BVal.oid d.GetID)] d),
       Event.ctxRelease] := by
  cases f <;> rfl

theorem findOne_trace (db : DbState) (c : String) (fl : BsonD) (f : Option Err) :
    (FindOne db c fl f).trace =
      [Event.ctxAcquire 10, Event.driverCall (Req.findOne c fl),
       Event.ctxRelease] := by
  cases f with
  | some e => rfl
  | none => cases h : svcFindOne (getColl db c) fl <;> simp [FindOne, h]

theorem deleteOne_trace (db : DbState) (c : String) (id : Nat) (f : Option Err) :
    (DeleteOne db c id f).trace =
      [Event.ctxAcquire 10,
       Event.driverCall
         (Req.deleteOne c [("_id", BVal.oid id)] [("_id", BVal.i 1)]),
       Event.ctxRelease] := by
  cases f <;> rfl

theorem find_trace (db : DbState) (c : String) (sm fl : BsonD) (sk li : Int)
    (f : Option Err) : (Find db c sm fl sk li f).trace =
      [Event.ctxAcquire 10, Event.driverCall (Req.find c fl ⟨sm, sk, li⟩),
       Event.ctxRelease] := by
  cases f <;> rfl

theorem newMongoHandler_trace (n u : String) (cf pf : Option Err) :
    (NewMongoHandler n u cf pf).trace =
      Event.ctxAcquire 10 :: Event.driverCall (Req.connect u) ::
        (if cf = none then [Event.driverCall Req.ping] else []) ++
        [Event.ctxRelease] := by
  cases cf with
  | some e => rfl
  | none => cases pf <;> rfl

/-! ### Claim theorems -/

/-- C3: NewMongoHandler first establishes a session and then pings; it
returns a usable handle exactly when both steps succeed within the
timeout, and returns the failing step's error with no handle when either
step errors (including a per-step timeout error). -/
theorem newMongoHandler_connect_then_ping (dbName url : String) :
    (∀ cf pf, (NewMongoHandler dbName url cf pf).handle ≠ none ↔
      cf = none ∧ pf = none) ∧
    (∀ e pf, (NewMongoHandler dbName url (some e) pf).handle = none ∧
      (NewMongoHandler dbName url (some e) pf).err = some e) ∧
    (∀ e, (NewMongoHandler dbName url none (some e)).handle = none ∧
      (NewMongoHandler dbName url none (some e)).err = some e) ∧
    ((NewMongoHandler dbName url none none).handle = some ⟨dbName⟩ ∧
      (NewMongoHandler dbName url none none).err = none) := by
  refine ⟨fun cf pf => ?_, fun e pf => by simp [NewMongoHandler],
    fun e => by simp [NewMongoHandler], by simp [NewMongoHandler]⟩
  cases cf <;> cases pf <;> simp [NewMongoHandler]

/-- C10: when the connect step succeeds and the ping fails,
NewMongoHandler returns the ping error and a nil handle; the trace shows a
session was established (a connect driver call) and no disconnect was ever
issued, so the session is left open with no handle to close it. -/
theorem newMongoHandler_ping_failure_leaks_session (dbName url : String)
    (e : Err) :
    (NewMongoHandler dbName url none (some e)).handle = none ∧
    (NewMongoHandler dbName url none (some e)).err = some e ∧
    Event.driverCall (Req.connect url) ∈
      (NewMongoHandler dbName url none (some e)).trace ∧
    Event.driverCall Req.disconnect ∉
      (NewMongoHandler dbName url none (some e)).trace := by
  simp [NewMongoHandler]

/-- C4: every operation — connect, index creation, single and batch
insert, update, single and multi find, delete, close — acquires a fresh
10-second scope at entry and releases it on every exit path (success or
failure), with nothing but driver calls inside the scope; no operation
takes a caller-supplied deadline or cancellation, so the acquired scope is
the constant 10 for every argument. -/
theorem allOps_scoped10 :
    (∀ n u cf pf, scoped10 (NewMongoHandler n u cf pf).trace) ∧
    (∀ db c m f, scoped10 (CreateIndex db c m f).trace) ∧
    (∀ db c d f, scoped10 (SaveOne db c d f).trace) ∧
    (∀ db c ds f, scoped10 (SaveMany db c ds f).trace) ∧
    (∀ db c d f, scoped10 (UpdateOne db c d f).trace) ∧
    (∀ db c fl f, scoped10 (FindOne db c fl f).trace) ∧
    (∀ db c i f, scoped10 (DeleteOne db c i f).trace) ∧
    (∀ db c sm fl sk li f, scoped10 (Find db c sm fl sk li f).trace) ∧
    (∀ h f, scoped10 (Close h f).2) := by
  refine ⟨fun n u cf pf => ?_, fun db c m f => ?_, fun db c d f => ?_,
    fun db c ds f => ?_, fun db c d f => ?_, fun db c fl f => ?_,
    fun db c i f => ?_, fun db c sm fl sk li f => ?_, fun h f => ?_⟩
  · rw [newMongoHandler_trace]
    cases cf with
    | some e =>
      exact ⟨[Event.driverCall (Req.connect u)], by simp, by
        simp [isDriverCall]⟩
    | none =>
      exact ⟨[Event.driverCall (Req.connect u), Event.driverCall Req.ping],
        by simp, by simp [isDriverCall]⟩
  · exact ⟨[Event.driverCall (Req.createIndex c m 10)],
      by rw [createIndex_trace]; rfl, by simp [isDriverCall]⟩
  · exact ⟨[Event.driverCall (Req.insertOne c d)],
      by rw [saveOne_trace]; rfl, by simp [isDriverCall]⟩
  · exact ⟨[Event.driverCall (Req.insertMany c (ds.map IFace.ofDoc))],
      by rw [saveMany_trace]; rfl, by simp [isDriverCall]⟩
  · exact ⟨[Event.driverCall (Req.updateOne c [("_id", BVal.oid d.GetID)] d)],
      by rw [updateOne_trace]; rfl, by simp [isDriverCall]⟩
  · exact ⟨[Event.driverCall (Req.findOne c fl)],
      by rw [findOne_trace]; rfl, by simp [isDriverCall]⟩
  · exact ⟨[Event.driverCall
        (Req.deleteOne c [("_id", BVal.oid i)] [("_id", BVal.i 1)])],
      by rw [deleteOne_trace]; rfl, by simp [isDriverCall]⟩
  · exact ⟨[Event.driverCall (Req.find c fl ⟨sm, sk, li⟩)],
      by rw [find_trace]; rfl, by simp [isDriverCall]⟩
  · exact ⟨[Event.driverCall Req.disconnect], rfl, by simp [isDriverCall]⟩

/-- C1: inserting a document with SaveOne and then calling FindOne on the
same collection with a filter matching the document's distinguishing
field (a filter the document satisfies and no already-stored document
does) succeeds and returns a document equal to the inserted one. -/
theorem saveOne_findOne_roundtrip (db : DbState) (coll : String) (d : Doc)
    (filter : BsonD) (hmatch : matchesFilter filter d = true)
    (hfresh : ∀ x ∈ getColl db coll, matchesFilter filter x = false) :
    (SaveOne db coll d none).err = none ∧
    (FindOne (SaveOne db coll d none).db coll filter none).res = some d ∧
    (FindOne (SaveOne db coll d none).db coll filter none).err = none := by
  have hget : getColl (SaveOne db coll d none).db coll =
      getColl db coll ++ [d] := getColl_setColl db coll _
  have h1 : (getColl db coll).find? (matchesFilter filter) = none :=
    List.find?_eq_none.mpr fun x hx => by simp [hfresh x hx]
  have hfind : svcFindOne (getColl (SaveOne db coll d none).db coll) filter =
      some d := by
    rw [hget]
    unfold svcFindOne
    simp [List.find?_append, h1, List.find?, hmatch]
  exact ⟨rfl, by simp [FindOne, hfind], by simp [FindOne, hfind]⟩

/-- Witness for C1 at a concrete input: the example flow of the
repository, inserting a named document into an empty collection and
finding it again by its name field. -/
theorem saveOne_findOne_roundtrip_witness :
    matchesFilter [("name", BVal.s "John Doe")]
      ⟨1, [("name", BVal.s "John Doe")]⟩ = true ∧
    (FindOne (SaveOne [] "users" ⟨1, [("name", BVal.s "John Doe")]⟩ none).db
        "users" [("name", BVal.s "John Doe")] none).res =
      some ⟨1, [("name", BVal.s "John Doe")]⟩ :=
  ⟨by decide,
    (saveOne_findOne_roundtrip [] "users" ⟨1, [("name", BVal.s "John Doe")]⟩
      [("name", BVal.s "John Doe")] (by decide) (by decide)).2.1⟩

/-- C2: UpdateOne always builds its driver request with the filter
`{_id: doc.GetID()}` and the full document as the `$set` update; when no
stored document carries that identifier, the collection is unchanged (no
record created), the result reports zero matched, and no error is
returned. -/
theorem updateOne_id_filter_noop_on_missing (db : DbState) (coll : String)
    (d : Doc) (hmiss : ∀ x ∈ getColl db coll, x.id ≠ d.GetID) :
    (∀ f, (UpdateOne db coll d f).trace =
      [Event.ctxAcquire 10,
       Event.driverCall (Req.updateOne coll [("_id", BVal.oid d.GetID)] d),
       Event.ctxRelease]) ∧
    (UpdateOne db coll d none).res = some ⟨0, 0, 0⟩ ∧
    (UpdateOne db coll d none).err = none ∧
    getColl (UpdateOne db coll d none).db coll = getColl db coll := by
  have hnm : ∀ x ∈ getColl db coll,
      matchesFilter [("_id", BVal.oid d.GetID)] x = false := by
    intro x hx
    rw [matchesFilter_idFilter]
    simp [hmiss x hx]
  have hsvc := svcUpdateOne_nomatch (getColl db coll) _ d hnm
  refine ⟨updateOne_trace db coll d, ?_, ?_, ?_⟩ <;>
    simp [UpdateOne, hsvc, getColl_setColl]

/-- Witness for C2 at a concrete input: updating a document whose
identifier is absent from an empty database matches zero records. -/
theorem updateOne_id_filter_noop_on_missing_witness :
    (∀ x ∈ getColl [] "users", x.id ≠ (Doc.mk 1 []).GetID) ∧
    (UpdateOne [] "users" (Doc.mk 1 []) none).res = some ⟨0, 0, 0⟩ :=
  ⟨by decide,
    (updateOne_id_filter_noop_on_missing [] "users" (Doc.mk 1 [])
      (by decide)).2.1⟩

/-- C6: DeleteOne always builds its driver request with the filter
`{_id: id}` and a delete option hinting the `{_id: 1}` index; when no
stored document carries that identifier, the collection is unchanged, the
result reports zero deleted, and no error is returned. -/
theorem deleteOne_by_id_with_hint (db : DbState) (coll : String) (id : Nat)
    (hmiss : ∀ x ∈ getColl db coll, x.id ≠ id) :
    (∀ f, (DeleteOne db coll id f).trace =
      [Event.ctxAcquire 10,
       Event.driverCall
         (Req.deleteOne coll [("_id", BVal.oid id)] [("_id", BVal.i 1)]),
       Event.ctxRelease]) ∧
    (DeleteOne db coll id none).res = some ⟨0⟩ ∧
    (DeleteOne db coll id none).err = none ∧
    getColl (DeleteOne db coll id none).db coll = getColl db coll := by
  have hnm : ∀ x ∈ getColl db coll,
      matchesFilter [("_id", BVal.oid id)] x = false := by
    intro x hx
    rw [matchesFilter_idFilter]
    simp [hmiss x hx]
  have hsvc := svcDeleteOne_nomatch (getColl db coll) _ hnm
  refine ⟨deleteOne_trace db coll id, ?_, ?_, ?_⟩ <;>
    simp [DeleteOne, hsvc, getColl_setColl]

/-- Witness for C6 at a concrete input: deleting a non-existent identifier
from an empty database reports zero deleted and no error. -/
theorem deleteOne_by_id_with_hint_witness :
    (∀ x ∈ getColl [] "users", x.id ≠ 7) ∧
    (DeleteOne [] "users" 7 none).res = some ⟨0⟩ ∧
    (DeleteOne [] "users" 7 none).err = none :=
  ⟨by decide,
    (deleteOne_by_id_with_hint [] "users" 7 (by decide)).2.1,
    (deleteOne_by_id_with_hint [] "users" 7 (by decide)).2.2.1⟩

/-- C7: for every list of documents (the empty list included), SaveMany
converts the list to a generic (interface) sequence of the same length
with the elements in the same order, and submits exactly that sequence to
the driver in a single batch call. -/
theorem saveMany_converts_and_single_batch (db : DbState) (coll : String)
    (docs : List Doc) (f : Option Err) :
    (SaveMany db coll docs f).trace.filter isDriverCall =
      [Event.driverCall (Req.insertMany coll (docs.map IFace.ofDoc))] ∧
    (docs.map IFace.ofDoc).length = docs.length ∧
    (∀ i : Nat, (docs.map IFace.ofDoc)[i]? = docs[i]?.map IFace.ofDoc) := by
  refine ⟨?_, by simp, fun i => by simp⟩
  rw [saveMany_trace]
  simp [isDriverCall]

/-- C8: when no stored document matches the filter, FindOne returns the
driver's own no-documents sentinel error, unwrapped and unclassified —
the same error value the driver reported, just as any other read error is
passed through unchanged — and whenever FindOne returns an error its
document result is nil. -/
theorem findOne_notfound_unwrapped (db : DbState) (coll : String)
    (filter : BsonD) :
    ((∀ x ∈ getColl db coll, matchesFilter filter x = false) →
      (FindOne db coll filter none).res = none ∧
      (FindOne db coll filter none).err = some Err.noDocuments) ∧
    (∀ e, (FindOne db coll filter (some e)).res = none ∧
      (FindOne db coll filter (some e)).err = some e) ∧
    (∀ f, (FindOne db coll filter f).err ≠ none →
      (FindOne db coll filter f).res = none) := by
  refine ⟨fun h => ?_, fun e => by simp [FindOne], fun f hf => ?_⟩
  · have hs : svcFindOne (getColl db coll) filter = none := by
      unfold svcFindOne
      exact List.find?_eq_none.mpr fun x hx => by simp [h x hx]
    simp [FindOne, hs]
  · cases f with
    | some e => simp [FindOne]
    | none =>
      cases hs : svcFindOne (getColl db coll) filter with
      | some d => simp [FindOne, hs] at hf
      | none => simp [FindOne, hs]

/-- Witness for C8 at a concrete input: a FindOne on an empty database
returns a nil document and the driver's no-documents error. -/
theorem findOne_notfound_unwrapped_witness :
    (FindOne [] "users" [] none).res = none ∧
    (FindOne [] "users" [] none).err = some Err.noDocuments :=
  (findOne_notfound_unwrapped [] "users" []).1 (by decide)

/-- C9: each data-path operation issues exactly one driver call per
invocation, NewMongoHandler never issues the same driver call twice (no
retries anywhere), and when the driver reports an error the operation
returns that very error with a nil result, without wrapping or
classification. -/
theorem single_call_error_passthrough :
    (∀ db c m f, (CreateIndex db c m f).trace.filter isDriverCall =
      [Event.driverCall (Req.createIndex c m 10)]) ∧
    (∀ db c d f, (SaveOne db c d f).trace.filter isDriverCall =
      [Event.driverCall (Req.insertOne c d)]) ∧
    (∀ db c ds f, (SaveMany db c ds f).trace.filter isDriverCall =
      [Event.driverCall (Req.insertMany c (ds.map IFace.ofDoc))]) ∧
    (∀ db c d f, (UpdateOne db c d f).trace.filter isDriverCall =
      [Event.driverCall (Req.updateOne c [("_id", BVal.oid d.GetID)] d)]) ∧
    (∀ db c fl f, (FindOne db c fl f).trace.filter isDriverCall =
      [Event.driverCall (Req.findOne c fl)]) ∧
    (∀ db c i f, (DeleteOne db c i f).trace.filter isDriverCall =
      [Event.driverCall
        (Req.deleteOne c [("_id", BVal.oid i)] [("_id", BVal.i 1)])]) ∧
    (∀ db c sm fl sk li f, (Find db c sm fl sk li f).trace.filter isDriverCall =
      [Event.driverCall (Req.find c fl ⟨sm, sk, li⟩)]) ∧
    (∀ h f, (Close h f).2.filter isDriverCall =
      [Event.driverCall Req.disconnect]) ∧
    (∀ n u cf pf, ((NewMongoHandler n u cf pf).trace.filter isDriverCall).Nodup) ∧
    (∀ db c m e, (CreateIndex db c m (some e)).err = some e ∧
      (CreateIndex db c m (some e)).res = none) ∧
    (∀ db c d e, (SaveOne db c d (some e)).err = some e ∧
      (SaveOne db c d (some e)).res = none) ∧
    (∀ db c ds e, (SaveMany db c ds (some e)).err = some e ∧
      (SaveMany db c ds (some e)).res = none) ∧
    (∀ db c d e, (UpdateOne db c d (some e)).err = some e ∧
      (UpdateOne db c d (some e)).res = none) ∧
    (∀ db c fl e, (FindOne db c fl (some e)).err = some e ∧
      (FindOne db c fl (some e)).res = none) ∧
    (∀ db c i e, (DeleteOne db c i (some e)).err = some e ∧
      (DeleteOne db c i (some e)).res = none) ∧
    (∀ db c sm fl sk li e, (Find db c sm fl sk li (some e)).err = some e ∧
      (Find db c sm fl sk li (some e)).res = none) ∧
    (∀ h e, (Close h (some e)).1 = some e) ∧
    (∀ n u e pf, (NewMongoHandler n u (some e) pf).err = some e ∧
      (NewMongoHandler n u (some e) pf).handle = none) ∧
    (∀ n u e, (NewMongoHandler n u none (some e)).err = some e ∧
      (NewMongoHandler n u none (some e)).handle = none) := by
  refine ⟨fun db c m f => ?_, fun db c d f => ?_, fun db c ds f => ?_,
    fun db c d f => ?_, fun db c fl f => ?_, fun db c i f => ?_,
    fun db c sm fl sk li f => ?_, fun h f => ?_, fun n u cf pf => ?_,
    fun db c m e => by simp [CreateIndex],
    fun db c d e => by simp [SaveOne],
    fun db c ds e => by simp [SaveMany],
    fun db c d e => by simp [UpdateOne],
    fun db c fl e => by simp [FindOne],
    fun db c i e => by simp [DeleteOne],
    fun db c sm fl sk li e => by simp [Find],
    fun h e => rfl,
    fun n u e pf => by simp [NewMongoHandler],
    fun n u e => by simp [NewMongoHandler]⟩
  · rw [createIndex_trace]; simp [isDriverCall]
  · rw [saveOne_trace]; simp [isDriverCall]
  · rw [saveMany_trace]; simp [isDriverCall]
  · rw [updateOne_trace]; simp [isDriverCall]
  · rw [findOne_trace]; simp [isDriverCall]
  · rw [deleteOne_trace]; simp [isDriverCall]
  · rw [find_trace]; simp [isDriverCall]
  · simp [Close, isDriverCall]
  · rw [newMongoHandler_trace]
    cases cf <;> simp [isDriverCall]

/-- C5: Find with skip 0 and a positive limit N issues one driver query
carrying the caller's sort model, skip and limit, and returns (already
materialized) a sequence of at most N documents, each matching the
filter, ordered per the caller-supplied sort model. -/
theorem find_skip0_limitN (db : DbState) (coll : String) (sm filter : BsonD)
    (N : Int) (hN : 0 < N) :
    (Find db coll sm filter 0 N none).err = none ∧
    (Find db coll sm filter 0 N none).trace =
      [Event.ctxAcquire 10, Event.driverCall (Req.find coll filter ⟨sm, 0, N⟩),
       Event.ctxRelease] ∧
    ∃ rs, (Find db coll sm filter 0 N none).res = some rs ∧
      rs.length ≤ N.natAbs ∧
      rs.Pairwise (fun a b => docLE sm a b = true) ∧
      ∀ x ∈ rs, matchesFilter filter x = true := by
  have hNne : N ≠ 0 := by omega
  have hres : (Find db coll sm filter 0 N none).res =
      some ((((getColl db coll).filter (matchesFilter filter)).mergeSort
        (docLE sm)).take N.natAbs) := by
    simp [Find, svcFind, applySkip, applyLimit, hNne]
  have hsorted : (((getColl db coll).filter (matchesFilter filter)).mergeSort
      (docLE sm)).Pairwise (fun a b => docLE sm a b = true) :=
    List.sorted_mergeSort (docLE_trans sm)
      (fun a b => by rcases docLE_total sm a b with h | h <;> simp [h]) _
  refine ⟨rfl, find_trace db coll sm filter 0 N none, _, hres, ?_, ?_, ?_⟩
  · rw [List.length_take]
    exact min_le_left _ _
  · exact hsorted.sublist (List.take_sublist _ _)
  · intro x hx
    have hmem : x ∈ ((getColl db coll).filter (matchesFilter filter)).mergeSort
        (docLE sm) := (List.take_sublist _ _).subset hx
    rw [List.mem_mergeSort] at hmem
    exact (List.mem_filter.mp hmem).2

/-- Witness for C5 at a concrete input: a Find over a two-document
collection with skip 0 and limit 10 returns without error. -/
theorem find_skip0_limitN_witness :
    (0 : Int) < 10 ∧
    (Find [("users", [⟨2, [("name", BVal.s "b")]⟩, ⟨1, [("name", BVal.s "a")]⟩])]
      "users" [("name", BVal.i 1)] [] 0 10 none).err = none :=
  ⟨by decide,
    (find_skip0_limitN
      [("users", [⟨2, [("name", BVal.s "b")]⟩, ⟨1, [("name", BVal.s "a")]⟩])]
      "users" [("name", BVal.i 1)] [] 10 (by decide)).1⟩

end MongoGen
